import Mathlib

/-!
Shallow embedding of `src/simpleperf/simpleperf.py` (a TCP throughput
measurement tool) and proofs about its transfer engine.

Bytes are modelled as `Nat` (ASCII codes), byte chunks as `List Nat`,
elapsed times as `ℚ`, Python `int` as `Int`/`Nat`.  Loops whose
termination depends on the peer or on the wall clock are modelled with
an explicit fuel / iteration count and return `Option`: `none` means the
loop did not exit within the modelled trace.
-/

/-- The 3-byte sentinel b"bye" (ASCII 98,121,101). -/
def byeBytes : List Nat := [98, 121, 101]

/-- The 3-byte acknowledgement b"ack" (ASCII 97,99,107). -/
def ackBytes : List Nat := [97, 99, 107]

/-- Python `b"bye" in data`: does the chunk contain the sentinel as a
contiguous subsequence anywhere? -/
def containsBye : List Nat → Bool
  | [] => false
  | b :: rest => byeBytes.isPrefixOf (b :: rest) || containsBye rest

/-- The receive loop of `handle_client` (simpleperf.py lines 91-95):
`while True: data = recv(); if b"bye" in data: break; data_received += len(data)`.
The input list is the sequence of chunks successive `recv` calls return
(an empty chunk models a `recv` on a connection the peer has closed).
Returns `some total` when the loop exits via the `break` on the sentinel;
`none` when the modelled trace is exhausted without the loop ever
exiting — the code has no other exit, so on such a trace the handler is
still inside the loop. -/
def handle_loop : List (List Nat) → Nat → Option Nat
  | [], _ => none
  | chunk :: rest, data_received =>
    if containsBye chunk then some data_received
    else handle_loop rest (data_received + chunk.length)

/-- What the server's per-connection handler produces once its receive
loop has exited: the received-byte total, the bytes it sends back
(`client_socket.send(b"ack")`, line 102), and the fact that it closes
the socket (line 103). -/
structure ServerOutcome where
  data_received : Nat
  response : List Nat
  closed : Bool
deriving DecidableEq, Repr

/-- The function `handle_client` (simpleperf.py lines 80-117) restricted to its
transfer protocol: run the receive loop over the chunk trace; if it
exits, send b"ack" and close.  `none` when the loop never exits on the
given trace. -/
def handle_client (chunks : List (List Nat)) : Option ServerOutcome :=
  (handle_loop chunks 0).map fun n => ⟨n, ackBytes, true⟩

/-- Inside `format_data` (simpleperf.py lines 308-315): the factor lookup
`{"B": 1, "KB": 1000, "MB": 1000000}[format]`; `none` models the
`KeyError` on any other key. -/
def formatFactor (format : String) : Option ℚ :=
  if format = "B" then some 1
  else if format = "KB" then some 1000
  else if format = "MB" then some 1000000
  else none

/-- The function `format_data(total_data_sent, format)` (simpleperf.py lines 308-315):
`transfer = total_data_sent / factor`;
`data_size = "B" if factor == 1 else "KB" if factor == 1000 else "MB"`. -/
def format_data (total_data_sent : Nat) (format : String) : Option (ℚ × String) :=
  (formatFactor format).map fun factor =>
    ((total_data_sent : ℚ) / factor,
      if factor = 1 then "B" else if factor = 1000 then "KB" else "MB")

/-- The bandwidth string of a final summary: either a rate in Mbps
formatted with the given number of decimals, or the "N/A" marker. -/
inductive RateDisplay where
  | mbps (decimals : Nat) (rate : ℚ) : RateDisplay
  | na : RateDisplay
deriving DecidableEq, Repr

/-- The server-role final bandwidth (simpleperf.py lines 108-112):
`if elapsed_time > 0: rate = (data_received*8)/(1000000*elapsed_time)`
formatted `"{:.1f} Mbps"`, `else rate_str = "N/A"`. -/
def server_summary_rate (data_received : Nat) (elapsed_time : ℚ) : RateDisplay :=
  if 0 < elapsed_time then
    RateDisplay.mbps 1 ((data_received * 8 : ℚ) / (1000000 * elapsed_time))
  else RateDisplay.na

/-- The client-role final bandwidth (simpleperf.py lines 192-196):
`if elapsed_time > 0: rate = (data_sent*8)/(1000000*elapsed_time)`
formatted `"{:.1f} Mbps"`, `else rate_str = "N/A"`. -/
def client_summary_rate (data_sent : Nat) (elapsed_time : ℚ) : RateDisplay :=
  if 0 < elapsed_time then
    RateDisplay.mbps 1 ((data_sent * 8 : ℚ) / (1000000 * elapsed_time))
  else RateDisplay.na

/-- The byte-count branch of `send_data` (simpleperf.py lines 227-236):
`while bytes_to_send > 0: bytes_sent = client_socket.send(data[:bytes_to_send]);
bytes_to_send -= bytes_sent; data_sent += bytes_sent`.
The transport is an oracle `accept : Nat → Nat → Nat` giving, for the
k-th send call and a requested length, the byte count `send` reports as
accepted.  `data` is `b"0" * buffer_size`, so the requested length of
`data[:bytes_to_send]` is `min buffer_size bytes_to_send`.  `fuel`
bounds the number of loop iterations in the modelled trace; the result
is `some (data_sent, accepted)` when the loop exits within the trace,
with `accepted` the list of per-call accepted byte counts; `none` when
the fuel runs out with `bytes_to_send > 0` (the loop is still running). -/
def send_count_loop (accept : Nat → Nat → Nat) (buffer_size : Nat) :
    Nat → Nat → Int → Nat → Option (Nat × List Nat)
  | 0, _, bytes_to_send, data_sent =>
    if 0 < bytes_to_send then none else some (data_sent, [])
  | fuel + 1, k, bytes_to_send, data_sent =>
    if 0 < bytes_to_send then
      let requested := min buffer_size bytes_to_send.toNat
      let bytes_sent := accept k requested
      (send_count_loop accept buffer_size fuel (k + 1)
          (bytes_to_send - bytes_sent) (data_sent + bytes_sent)).map
        fun r => (r.1, bytes_sent :: r.2)
    else some (data_sent, [])

/-- The function `send_data` in byte-count mode (simpleperf.py lines 220-236), from
its initial state `data_sent = 0`, `bytes_to_send = num_bytes`. -/
def send_data_count (accept : Nat → Nat → Nat) (buffer_size : Nat)
    (num_bytes : Nat) (fuel : Nat) : Option (Nat × List Nat) :=
  send_count_loop accept buffer_size fuel 0 (num_bytes : Int) 0

/-- The duration branch of `send_data` (simpleperf.py lines 239-246):
`while time.time() - start_time < duration: client_socket.send(data);
data_sent += len(data); data_sent_ref[0] = data_sent`.
`iterations` is the number of loop iterations the wall clock admits.
The return value of `send` is received from the transport oracle but —
exactly as in the source — discarded; the counter grows by
`len(data) = buffer_size` per call.  Returns the final `data_sent`
together with the sequence of values successively written to
`data_sent_ref[0]` (the writes happen when a `data_sent_ref` is
passed, as `client_mode` always does). -/
def send_duration (accept : Nat → Nat → Nat) (buffer_size : Nat) :
    Nat → Nat → Nat → Nat × List Nat
  | 0, _, data_sent => (data_sent, [])
  | iterations + 1, k, data_sent =>
    let _acceptedByTransport := accept k buffer_size
    let d := data_sent + buffer_size
    let r := send_duration accept buffer_size iterations (k + 1) d
    (r.1, d :: r.2)

/-- The total number of bytes the transport actually accepted during a
duration-mode run: the sum of the values each `send` call returned
(which the source discards). -/
def duration_accepted (accept : Nat → Nat → Nat) (buffer_size : Nat)
    (iterations : Nat) : Nat :=
  ((List.range iterations).map (fun k => accept k buffer_size)).sum

/-- Python `s[-2:]`: the last two characters (the whole string when it
is shorter than two characters). -/
def pyLastTwo (s : String) : String :=
  String.mk (s.data.drop (s.data.length - 2))

/-- Python `s[:-2]`: everything but the last two characters (empty when
the string has at most two characters). -/
def pyDropLastTwo (s : String) : String :=
  String.mk (s.data.take (s.data.length - 2))

/-- Python `int(s)` restricted to an optional minus sign followed by
decimal digits (the forms relevant here); `none` models the
`ValueError` on anything else, including the empty string. -/
def pyNatOfDigits (cs : List Char) : Option Nat :=
  if cs = [] then none
  else if cs.all Char.isDigit then
    some (cs.foldl (fun n c => n * 10 + (c.toNat - 48)) 0)
  else none

/-- Python `int(s)` on an optional-sign decimal literal. -/
def pyInt (s : String) : Option Int :=
  match s.data with
  | '-' :: rest => (pyNatOfDigits rest).map fun n => -(n : Int)
  | cs => (pyNatOfDigits cs).map fun n => (n : Int)

/-- Python `['B', 'KB', 'MB'].index(u)`: the first position of `u` in
that list; `none` models the `ValueError` when `u` is absent. -/
def pyUnitIndex (u : String) : Option Nat :=
  if u = "B" then some 0
  else if u = "KB" then some 1
  else if u = "MB" then some 2
  else none

/-- The byte-count conversion in `client_mode` (simpleperf.py lines
155-157):
`num_bytes = int(num_bytes[:-2]) * (1000 ** ['B','KB','MB'].index(num_bytes[-2:]))`.
`none` models the exceptions: `ValueError` from `.index` when the last
two characters are none of `'B'`, `'KB'`, `'MB'` (the comparison is
case-sensitive), and `ValueError` from `int()` when the remaining
prefix is not an integer literal. -/
def parse_num_bytes (num_bytes : String) : Option Int :=
  (pyUnitIndex (pyLastTwo num_bytes)).bind fun i =>
    (pyInt (pyDropLastTwo num_bytes)).map fun n => n * 1000 ^ i

/-- One interim statistics line of `periodic_report`, kept as the
numeric values the source formats: `lo` and `hi` are the two numbers of
`interval_str = f"{current_interval:.1f} - {elapsed_time:.1f}"`
(line 291), `delta` is `data_sent_interval`, and `rate` is the Mbps
value formatted with `"{:.2f}"` (lines 287-288). -/
structure ReportRecord where
  lo : ℚ
  hi : ℚ
  delta : Int
  rate : ℚ
deriving DecidableEq, Repr

/-- The function `periodic_report` (simpleperf.py lines 268-296).  `clock k` is the
value of `time.time()` observed after the k-th interval sleep, and
`reads k` the value of `data_sent_ref[0]` read then.  The loop runs
while `current_interval < duration`; each pass records
`⟨current_interval, elapsed_time, data_sent_interval, rate⟩` and then
advances `current_interval` by `interval`.  `fuel` bounds the modelled
iterations: `none` when it is exhausted before the loop condition
fails. -/
def periodic_report (clock : Nat → ℚ) (reads : Nat → Nat)
    (start_time interval duration : ℚ) :
    Nat → ℚ → Int → Nat → Option (List ReportRecord)
  | 0, current_interval, _, _ =>
    if current_interval < duration then none else some []
  | fuel + 1, current_interval, prev_data_sent, k =>
    if current_interval < duration then
      let elapsed_time := clock k - start_time
      let data_sent : Int := reads k
      let data_sent_interval := data_sent - prev_data_sent
      let rate : ℚ := (data_sent_interval * 8 : ℚ) / (1000000 * interval)
      (periodic_report clock reads start_time interval duration fuel
          (current_interval + interval) data_sent (k + 1)).map
        fun rest =>
          ⟨current_interval, elapsed_time, data_sent_interval, rate⟩ :: rest
    else some []

/-- How `client_mode` (simpleperf.py lines 159-174) wires its shared
counters.  The source creates a single one-element list
`data_sent_ref = [0]` (line 160); every worker thread is built from the
same `partial(send_data, ..., data_sent_ref=data_sent_ref)` closure
(lines 170-174), and the optional reporter thread receives the same
list (lines 163-167).  Counter cells are identified by their index in
`counters`; `workerCounter i` is the cell worker `i`'s closure captured,
`reporterCounter` the cell the reporter reads (when an interval is
configured). -/
structure ClientWiring where
  counters : List Nat
  workerCounter : Nat → Nat
  reporterCounter : Option Nat

/-- The counter wiring `client_mode` sets up for `parallel` workers,
`interval` saying whether a reporting interval was configured. -/
def client_wiring (parallel : Nat) (interval : Bool) : ClientWiring :=
  { counters := [0]
    workerCounter := fun _ => 0
    reporterCounter := if interval then some 0 else none }

/-! ## Helper lemmas -/

/-- When some chunk of the trace contains the sentinel, the receive
loop exits at the first such chunk, having accumulated exactly the
lengths of the chunks strictly before it. -/
theorem handle_loop_spec (chunks : List (List Nat)) :
    ∀ acc, (∃ c ∈ chunks, containsBye c = true) →
      handle_loop chunks acc =
        some (acc + ((chunks.takeWhile fun c => !containsBye c).map
          List.length).sum) := by
  induction chunks with
  | nil => intro acc h; simp at h
  | cons c rest ih =>
    intro acc h
    by_cases hb : containsBye c
    · simp [handle_loop, hb, List.takeWhile_cons]
    · have hbf : containsBye c = false := by revert hb; cases containsBye c <;> simp
      have h' : ∃ x ∈ rest, containsBye x = true := by
        rcases h with ⟨x, hx, hxb⟩
        rcases List.mem_cons.mp hx with rfl | hx'
        · exact absurd hxb (by simp [hbf])
        · exact ⟨x, hx', hxb⟩
      rw [show handle_loop (c :: rest) acc = handle_loop rest (acc + c.length) from
        by simp [handle_loop, hbf]]
      rw [ih (acc + c.length) h']
      simp [List.takeWhile_cons, hbf, Nat.add_assoc]

/-- The receive loop never exits on a trace of empty end-of-stream
chunks: an empty chunk does not contain the sentinel, so the loop just
adds `0` and reads again. -/
theorem handle_loop_replicate_nil (n : Nat) :
    ∀ acc, handle_loop (List.replicate n []) acc = none := by
  induction n with
  | zero => intro acc; rfl
  | succ m ih =>
    intro acc
    simp only [List.replicate, handle_loop, containsBye, if_false]
    exact ih _

/-- In the byte-count send loop, `data_sent` accumulates exactly the
byte counts the transport reported as accepted. -/
theorem send_count_loop_sum (accept : Nat → Nat → Nat) (buffer_size : Nat) :
    ∀ (fuel k : Nat) (bytes_to_send : Int) (data_sent : Nat)
      (r : Nat × List Nat),
      send_count_loop accept buffer_size fuel k bytes_to_send data_sent =
        some r →
      r.1 = data_sent + r.2.sum := by
  intro fuel
  induction fuel with
  | zero =>
    intro k bts ds r h
    simp only [send_count_loop] at h
    split at h
    · exact absurd h (by simp)
    · obtain rfl : (ds, ([] : List Nat)) = r := Option.some.inj h
      simp
  | succ m ih =>
    intro k bts ds r h
    simp only [send_count_loop] at h
    split at h
    · rcases Option.map_eq_some'.mp h with ⟨r', hr', hmap⟩
      have := ih (k + 1) (bts - accept k (min buffer_size bts.toNat))
        (ds + accept k (min buffer_size bts.toNat)) r' hr'
      subst hmap
      simp only [List.sum_cons, this]
      ring
    · obtain rfl : (ds, ([] : List Nat)) = r := Option.some.inj h
      simp

/-- Under the partial-send precondition (each call accepts at least one
and at most the requested number of bytes), the byte-count loop exits
within `bytes_to_send` iterations having moved exactly the outstanding
bytes. -/
theorem send_count_loop_total (accept : Nat → Nat → Nat) (buffer_size : Nat)
    (hbs : 0 < buffer_size)
    (haccept : ∀ k req, 0 < req → 0 < accept k req ∧ accept k req ≤ req) :
    ∀ (fuel k : Nat) (bytes_to_send : Int) (data_sent : Nat),
      bytes_to_send.toNat ≤ fuel →
      ∃ l, send_count_loop accept buffer_size fuel k bytes_to_send data_sent =
        some (data_sent + bytes_to_send.toNat, l) := by
  intro fuel
  induction fuel with
  | zero =>
    intro k bts ds hle
    have h0 : bts.toNat = 0 := Nat.le_zero.mp hle
    have hnp : ¬ 0 < bts := by
      intro hpos
      have := Int.toNat_of_nonneg (le_of_lt hpos)
      omega
    refine ⟨[], ?_⟩
    simp [send_count_loop, hnp, h0]
  | succ m ih =>
    intro k bts ds hle
    by_cases hpos : 0 < bts
    · have hbtsnat : 0 < bts.toNat := by
        rcases Int.lt_iff_add_one_le.mp hpos with h
        omega
      set req := min buffer_size bts.toNat with hreq
      have hreqpos : 0 < req := lt_min hbs hbtsnat
      obtain ⟨hsentpos, hsentle⟩ := haccept k req hreqpos
      set sent := accept k req with hsent
      have hsentle' : sent ≤ bts.toNat := le_trans hsentle (min_le_right _ _)
      have hsub : (bts - (sent : Int)).toNat = bts.toNat - sent := by omega
      have hle' : (bts - (sent : Int)).toNat ≤ m := by omega
      obtain ⟨l, hl⟩ := ih (k + 1) (bts - (sent : Int)) (ds + sent) hle'
      refine ⟨sent :: l, ?_⟩
      simp only [send_count_loop, hpos, if_true, ← hreq, ← hsent]
      rw [hl]
      simp only [Option.map_some', Option.some.injEq, Prod.mk.injEq]
      exact ⟨by omega, trivial⟩
    · have h0 : bts.toNat = 0 := by
        simp [Int.toNat_eq_zero]
        omega
      refine ⟨[], ?_⟩
      simp [send_count_loop, hpos, h0]

/-! ## Claim theorems -/

/-- C1: for every chunk trace containing the sentinel, the server's
receive handler stops reading at the first chunk that contains b"bye"
anywhere in it, sends the 3-byte acknowledgement b"ack", closes the
connection, and its received-byte total is the sum of the lengths of
the chunks read strictly before that chunk (no byte of the triggering
chunk is counted). -/
theorem server_stops_at_first_bye (chunks : List (List Nat))
    (h : ∃ c ∈ chunks, containsBye c = true) :
    handle_client chunks =
      some ⟨((chunks.takeWhile fun c => !containsBye c).map List.length).sum,
        ackBytes, true⟩ := by
  unfold handle_client
  rw [handle_loop_spec chunks 0 h]
  simp

theorem server_stops_at_first_bye_witness :
    handle_client [[7, 7], [98, 121, 101, 5], [9]] =
      some ⟨2, ackBytes, true⟩ := by
  have h := server_stops_at_first_bye [[7, 7], [98, 121, 101, 5], [9]]
    (by decide)
  rw [h]
  decide

/-- C5 (code bug): a peer that disconnects without sending the sentinel
makes every subsequent `recv` return the empty end-of-stream chunk, yet
the receive loop never exits — an empty chunk does not contain b"bye",
so the handler adds `0` and calls `recv` again, forever; no statistics
are ever produced.  Here the peer sends b"000" and closes; however many
empty reads follow, the handler is still inside its loop (`none`). -/
theorem receive_loop_never_exits_on_disconnect (n : Nat) :
    handle_client ([48, 48, 48] :: List.replicate n []) = none := by
  unfold handle_client
  have hb : containsBye [48, 48, 48] = false := by decide
  simp only [handle_loop, hb, if_false]
  rw [handle_loop_replicate_nil]
  rfl

/-- C8: for both the server-role and the client-role final summary, the
bandwidth is `b*8 / (1000000*t)` Mbps formatted with one decimal place
whenever `t > 0`, and the "N/A" marker (no division performed) whenever
`t ≤ 0`. -/
theorem summary_rate_formula_or_na (b : Nat) (t : ℚ) :
    (0 < t →
      server_summary_rate b t =
          RateDisplay.mbps 1 ((b * 8 : ℚ) / (1000000 * t)) ∧
        client_summary_rate b t =
          RateDisplay.mbps 1 ((b * 8 : ℚ) / (1000000 * t))) ∧
    (t ≤ 0 →
      server_summary_rate b t = RateDisplay.na ∧
        client_summary_rate b t = RateDisplay.na) := by
  constructor
  · intro ht
    simp [server_summary_rate, client_summary_rate, ht]
  · intro ht
    simp [server_summary_rate, client_summary_rate, not_lt.mpr ht]

theorem summary_rate_formula_or_na_witness :
    (server_summary_rate 1000000 2 =
        RateDisplay.mbps 1 (((1000000 : Nat) * 8 : ℚ) / (1000000 * 2)) ∧
      client_summary_rate 1000000 2 =
        RateDisplay.mbps 1 (((1000000 : Nat) * 8 : ℚ) / (1000000 * 2))) ∧
    (server_summary_rate 5 0 = RateDisplay.na ∧
      client_summary_rate 5 0 = RateDisplay.na) :=
  ⟨(summary_rate_formula_or_na 1000000 2).1 (by norm_num),
    (summary_rate_formula_or_na 5 0).2 (by norm_num)⟩

/-- C9: `format_data` divides by 1 / 1000 / 1000000 for the units
"B" / "KB" / "MB" with the matching label, and for a fixed unit the
returned value is monotone in the byte count. -/
theorem format_data_factors_and_monotone :
    (∀ b : Nat, format_data b "B" = some ((b : ℚ) / 1, "B")) ∧
    (∀ b : Nat, format_data b "KB" = some ((b : ℚ) / 1000, "KB")) ∧
    (∀ b : Nat, format_data b "MB" = some ((b : ℚ) / 1000000, "MB")) ∧
    (∀ (u : String) (b₁ b₂ : Nat) (v₁ v₂ : ℚ) (l₁ l₂ : String),
      b₁ ≤ b₂ → format_data b₁ u = some (v₁, l₁) →
      format_data b₂ u = some (v₂, l₂) → v₁ ≤ v₂) := by
  refine ⟨?_, ?_, ?_, ?_⟩
  · intro b; simp [format_data, formatFactor]
  · intro b; simp [format_data, formatFactor]
  · intro b; simp [format_data, formatFactor]
  · intro u b₁ b₂ v₁ v₂ l₁ l₂ hb h₁ h₂
    unfold format_data formatFactor at h₁ h₂
    split_ifs at h₁ h₂ <;>
      simp only [Option.map_some', Option.map_none', Option.some.injEq,
        Prod.mk.injEq, reduceCtorEq] at h₁ h₂ <;>
      rw [← h₁.1, ← h₂.1] <;>
      gcongr <;>
      exact_mod_cast hb

theorem format_data_factors_and_monotone_witness :
    ((2 : Nat) : ℚ) / 1000 ≤ ((3 : Nat) : ℚ) / 1000 :=
  format_data_factors_and_monotone.2.2.2 "KB" 2 3
    (((2 : Nat) : ℚ) / 1000) (((3 : Nat) : ℚ) / 1000) "KB" "KB"
    (by norm_num) (by simp [format_data, formatFactor])
    (by simp [format_data, formatFactor])

/-- C2: for targetBytes `N > 0` and `buffer_size > 0`, under the
precondition that every send call accepts at least one and at most the
requested number of bytes, the byte-count send loop terminates (within
`N` iterations, one per accepted byte at worst) with the remaining
count at zero, returning `bytesMoved` exactly `N`. -/
theorem send_count_reaches_target (accept : Nat → Nat → Nat)
    (buffer_size N : Nat) (hbs : 0 < buffer_size) (hN : 0 < N)
    (haccept : ∀ k req, 0 < req → 0 < accept k req ∧ accept k req ≤ req) :
    (send_data_count accept buffer_size N N).map Prod.fst = some N := by
  obtain ⟨l, hl⟩ := send_count_loop_total accept buffer_size hbs haccept N 0
    (N : Int) 0 (by simp)
  unfold send_data_count
  rw [hl]
  simp

theorem send_count_reaches_target_witness :
    (send_data_count (fun _ req => req) 4 10 10).map Prod.fst = some 10 :=
  send_count_reaches_target (fun _ req => req) 4 10 (by norm_num) (by norm_num)
    (fun _ req hreq => ⟨hreq, le_refl req⟩)

/-- The duration-mode send loop in closed form: starting from
`data_sent`, after `iterations` sends the total has grown by
`buffer_size` per call and the counter has been written the successive
running totals. -/
theorem send_duration_spec (accept : Nat → Nat → Nat) (buffer_size : Nat) :
    ∀ (iterations k data_sent : Nat),
      send_duration accept buffer_size iterations k data_sent =
        (data_sent + buffer_size * iterations,
          (List.range iterations).map fun j => data_sent + buffer_size * (j + 1)) := by
  intro iterations
  induction iterations with
  | zero => intro k ds; simp [send_duration]
  | succ m ih =>
    intro k ds
    rw [send_duration, ih (k + 1) (ds + buffer_size)]
    rw [List.range_succ_eq_map]
    simp only [List.map_cons, List.map_map, Prod.mk.injEq]
    refine ⟨by ring, List.cons_eq_cons.mpr ⟨by ring, ?_⟩⟩
    apply List.map_congr_left
    intro j _
    simp only [Function.comp_apply, Nat.succ_eq_add_one]
    ring

/-- C3 counterexample: in duration mode the code adds
`len(data) = buffer_size` per call and discards the transport's return
value, so with a transport that accepts only 1 byte of a 4-byte buffer,
one loop iteration reports `bytesMoved = 4` while the transport
accepted 1 byte. -/
theorem duration_bytesMoved_ne_accepted :
    (send_duration (fun _ _ => 1) 4 1 0 0).1 ≠
      duration_accepted (fun _ _ => 1) 4 1 := by decide

/-- C3 amended: in byte-count mode `bytesMoved` is exactly the sum of
the byte counts the send calls reported as accepted; in duration mode
`bytesMoved` is `buffer_size` times the number of send calls (the sum
of the *requested* lengths), which equals the transport-accepted total
only when every send accepts the full buffer. -/
theorem send_data_bytesMoved_characterization (accept : Nat → Nat → Nat)
    (buffer_size fuel num_bytes iterations : Nat) (r : Nat × List Nat)
    (hr : send_data_count accept buffer_size num_bytes fuel = some r) :
    r.1 = r.2.sum ∧
      (send_duration accept buffer_size iterations 0 0).1 =
        buffer_size * iterations := by
  constructor
  · have := send_count_loop_sum accept buffer_size fuel 0 (num_bytes : Int) 0 r hr
    simpa using this
  · rw [send_duration_spec]
    simp

theorem send_data_bytesMoved_characterization_witness :
    (10, [4, 4, 2]).1 = [4, 4, 2].sum ∧
      (send_duration (fun _ req => req) 4 3 0 0).1 = 4 * 3 :=
  send_data_bytesMoved_characterization (fun _ req => req) 4 10 10 3
    (10, [4, 4, 2]) (by decide)

/-- C10: in duration mode with `buffer_size > 0`, `bytesMoved` is the
exact multiple `iterations * buffer_size` of the buffer size, the
values written to the shared counter are the successive running totals
`buffer_size, 2*buffer_size, ...`, and consecutive writes strictly
increase by exactly `buffer_size`. -/
theorem duration_mode_counter_multiples (accept : Nat → Nat → Nat)
    (buffer_size iterations : Nat) (hbs : 0 < buffer_size) :
    (send_duration accept buffer_size iterations 0 0).1 =
        iterations * buffer_size ∧
      (send_duration accept buffer_size iterations 0 0).2 =
        (List.range iterations).map (fun j => (j + 1) * buffer_size) ∧
      List.Chain' (fun a b => a < b ∧ b = a + buffer_size)
        (send_duration accept buffer_size iterations 0 0).2 := by
  have hspec := send_duration_spec accept buffer_size iterations 0 0
  refine ⟨?_, ?_, ?_⟩
  · rw [hspec]; ring_nf
  · rw [hspec]
    simp only
    apply List.map_congr_left
    intro j _
    ring
  · rw [hspec]
    simp only
    rw [List.chain'_map]
    cases iterations with
    | zero => simp
    | succ m =>
      rw [List.chain'_range_succ]
      intro j hj
      constructor
      · simp only [Nat.zero_add]
        exact (Nat.mul_lt_mul_left hbs).mpr (by omega)
      · simp only [Nat.succ_eq_add_one, Nat.zero_add]
        ring

theorem duration_mode_counter_multiples_witness :
    (send_duration (fun _ _ => 1) 4 3 0 0).1 = 3 * 4 ∧
      (send_duration (fun _ _ => 1) 4 3 0 0).2 =
        (List.range 3).map (fun j => (j + 1) * 4) ∧
      List.Chain' (fun a b => a < b ∧ b = a + 4)
        (send_duration (fun _ _ => 1) 4 3 0 0).2 :=
  duration_mode_counter_multiples (fun _ _ => 1) 4 3 (by norm_num)

/-- Python `s[-2:]` of a string extended by two characters is exactly those
two characters. -/
theorem pyLastTwo_append_two (s : String) (c₁ c₂ : Char) :
    pyLastTwo (s ++ String.mk [c₁, c₂]) = String.mk [c₁, c₂] := by
  unfold pyLastTwo
  rw [String.data_append]
  have hlen : (s.data ++ (String.mk [c₁, c₂]).data).length - 2 = s.data.length := by
    simp [List.length_append]
  rw [hlen]
  rw [show (String.mk [c₁, c₂]).data = [c₁, c₂] from rfl, List.drop_left]

/-- Python `s[:-2]` of a string extended by two characters is the original
string. -/
theorem pyDropLastTwo_append_two (s : String) (c₁ c₂ : Char) :
    pyDropLastTwo (s ++ String.mk [c₁, c₂]) = s := by
  unfold pyDropLastTwo
  rw [String.data_append]
  have hlen : (s.data ++ (String.mk [c₁, c₂]).data).length - 2 = s.data.length := by
    simp [List.length_append]
  rw [hlen]
  rw [show (String.mk [c₁, c₂]).data = [c₁, c₂] from rfl, List.take_left]

/-- C4 counterexample: the spec's own example "5000B" (integer 5000,
suffix B, factor 1) is not converted to 5000 by the client engine —
`num_bytes[-2:]` is "0B", which `['B','KB','MB'].index` rejects with a
`ValueError`, because a one-character suffix can never equal the last
*two* characters. -/
theorem parse_plain_B_suffix_fails : parse_num_bytes "5000B" ≠ some 5000 := by
  decide

/-- C4 amended: only the two-character uppercase suffixes convert: for
any integer-literal prefix, "KB" multiplies by 1000 and "MB" by
1000000.  A bare "B" suffix (factor 1) and any non-uppercase suffix
make the `['B','KB','MB'].index(num_bytes[-2:])` lookup raise
`ValueError`, so no conversion takes place for them. -/
theorem parse_num_bytes_uppercase_suffixes (s : String) (k : Int)
    (hk : pyInt s = some k) :
    parse_num_bytes (s ++ "KB") = some (k * 1000) ∧
      parse_num_bytes (s ++ "MB") = some (k * 1000000) := by
  constructor
  · rw [show ("KB" : String) = String.mk ['K', 'B'] from rfl]
    unfold parse_num_bytes
    simp only [pyLastTwo_append_two, pyDropLastTwo_append_two, hk]
    rw [show pyUnitIndex (String.mk ['K', 'B']) = some 1 from by decide]
    simp
  · rw [show ("MB" : String) = String.mk ['M', 'B'] from rfl]
    unfold parse_num_bytes
    simp only [pyLastTwo_append_two, pyDropLastTwo_append_two, hk]
    rw [show pyUnitIndex (String.mk ['M', 'B']) = some 2 from by decide]
    simp

theorem parse_num_bytes_uppercase_suffixes_witness :
    parse_num_bytes ("5" ++ "KB") = some (5 * 1000) ∧
      parse_num_bytes ("5" ++ "MB") = some (5 * 1000000) :=
  parse_num_bytes_uppercase_suffixes "5" 5 (by decide)

/-- One iteration of the reporting loop while `current_interval` is
still below `duration`. -/
theorem periodic_report_step (clock : Nat → ℚ) (reads : Nat → Nat)
    (start_time interval duration : ℚ) (fuel : Nat) (cur : ℚ) (prev : Int)
    (k : Nat) (h : cur < duration) :
    periodic_report clock reads start_time interval duration (fuel + 1)
        cur prev k =
      (periodic_report clock reads start_time interval duration fuel
          (cur + interval) (reads k) (k + 1)).map
        fun rest =>
          ⟨cur, clock k - start_time, (reads k : Int) - prev,
            (((reads k : Int) - prev) * 8 : ℚ) / (1000000 * interval)⟩ ::
            rest := by
  simp [periodic_report, h]

/-- Once `current_interval` has reached `duration` the loop stops with
no further records, whatever fuel remains. -/
theorem periodic_report_done (clock : Nat → ℚ) (reads : Nat → Nat)
    (start_time interval duration : ℚ) (cur : ℚ) (prev : Int) (k fuel : Nat)
    (h : ¬ cur < duration) :
    periodic_report clock reads start_time interval duration fuel cur prev k =
      some [] := by
  cases fuel <;> simp [periodic_report, h]

/-- C6 counterexample: one report of a run with interval 1 whose
interval sleep overshoots (wall clock 1.5 s after start): the printed
label pair is (0, 1.5) — the upper bound is `elapsed_time`, not
`intervalStart + interval = 1.0`, so the label claimed by the spec is
wrong for this run. -/
theorem interim_label_upper_is_wall_clock :
    periodic_report (fun _ => (3 : ℚ) / 2) (fun _ => 1000) 0 1 1 2 0 0 0 =
        some [⟨0, 3 / 2, 1000, 1 / 125⟩] ∧
      ¬ ((3 : ℚ) / 2 = 0 + 1) := by
  constructor
  · rw [show (2 : Nat) = 1 + 1 from rfl]
    rw [periodic_report_step (fun _ => (3 : ℚ) / 2) (fun _ => 1000) 0 1 1 1 0 0 0
        (by norm_num),
      periodic_report_done (fun _ => (3 : ℚ) / 2) (fun _ => 1000) 0 1 1 (0 + 1)
        ((1000 : Nat) : Int) (0 + 1) 1 (by norm_num)]
    simp only [Option.map_some']
    norm_num
  · norm_num

/-- Every record the reporting loop produces: its label's lower bound is
the accumulated interval start, its upper bound the wall-clock elapsed
time at that report, and its rate `delta*8 / (1000000*interval)`. -/
theorem periodic_report_records (clock : Nat → ℚ) (reads : Nat → Nat)
    (start_time interval duration : ℚ) :
    ∀ (fuel : Nat) (cur : ℚ) (prev : Int) (k : Nat) (l : List ReportRecord),
      periodic_report clock reads start_time interval duration fuel cur prev k =
        some l →
      ∀ (j : Nat) (r : ReportRecord), l[j]? = some r →
        r.lo = cur + j * interval ∧ r.hi = clock (k + j) - start_time ∧
          r.rate = (r.delta * 8 : ℚ) / (1000000 * interval) := by
  intro fuel
  induction fuel with
  | zero =>
    intro cur prev k l h j r hr
    by_cases hc : cur < duration
    · simp [periodic_report, hc] at h
    · simp only [periodic_report_done clock reads start_time interval duration
        cur prev k 0 hc, Option.some.injEq] at h
      subst h
      simp at hr
  | succ m ih =>
    intro cur prev k l h j r hr
    by_cases hc : cur < duration
    · rw [periodic_report_step clock reads start_time interval duration m
        cur prev k hc] at h
      rcases Option.map_eq_some'.mp h with ⟨rest, hrest, hl⟩
      subst hl
      cases j with
      | zero =>
        simp only [List.getElem?_cons_zero, Option.some.injEq] at hr
        subst hr
        refine ⟨by simp, by simp, ?_⟩
        push_cast
        ring
      | succ n =>
        simp only [List.getElem?_cons_succ] at hr
        have hrec := ih (cur + interval) (reads k) (k + 1) rest hrest n r hr
        refine ⟨?_, ?_, hrec.2.2⟩
        · rw [hrec.1]; push_cast; ring
        · rw [hrec.2.1]; congr 2; omega
    · simp only [periodic_report_done clock reads start_time interval duration
        cur prev k (m + 1) hc, Option.some.injEq] at h
      subst h
      simp at hr

/-- C6 amended: the j-th interim record's label is
"{intervalStart:.1f} - {elapsed:.1f}" where intervalStart is the
accumulated interval start `j*interval` and the upper bound is the
wall-clock elapsed time at the report — not `intervalStart + interval`
— while the bandwidth is `delta*8 / (1000000*interval)` Mbps (the
value the source formats with two decimal places). -/
theorem interim_report_characterization (clock : Nat → ℚ) (reads : Nat → Nat)
    (start_time interval duration : ℚ) (fuel : Nat) (l : List ReportRecord)
    (h : periodic_report clock reads start_time interval duration fuel 0 0 0 =
      some l)
    (j : Nat) (r : ReportRecord) (hr : l[j]? = some r) :
    r.lo = j * interval ∧ r.hi = clock j - start_time ∧
      r.rate = (r.delta * 8 : ℚ) / (1000000 * interval) := by
  have hrec := periodic_report_records clock reads start_time interval duration
    fuel 0 0 0 l h j r hr
  simpa using hrec

theorem interim_report_characterization_witness :
    (⟨0, 2, 500, 1 / 250⟩ : ReportRecord).lo = ((0 : Nat) : ℚ) * 1 ∧
      (⟨0, 2, 500, 1 / 250⟩ : ReportRecord).hi = (fun _ : Nat => (2 : ℚ)) 0 - 0 ∧
      (⟨0, 2, 500, 1 / 250⟩ : ReportRecord).rate =
        (((⟨0, 2, 500, 1 / 250⟩ : ReportRecord).delta * 8 : ℚ)) /
          (1000000 * 1) := by
  refine interim_report_characterization (fun _ => (2 : ℚ)) (fun _ => 500) 0 1 1 2
    [⟨0, 2, 500, 1 / 250⟩] ?_ 0 ⟨0, 2, 500, 1 / 250⟩ rfl
  rw [show (2 : Nat) = 1 + 1 from rfl]
  rw [periodic_report_step (fun _ => (2 : ℚ)) (fun _ => 500) 0 1 1 1 0 0 0
      (by norm_num),
    periodic_report_done (fun _ => (2 : ℚ)) (fun _ => 500) 0 1 1 (0 + 1)
      ((500 : Nat) : Int) (0 + 1) 1 (by norm_num)]
  simp only [Option.map_some']
  norm_num

/-- C7 counterexample: with parallelism 2 the engine does not create one
distinct counter per connection — `client_mode` creates the single list
`data_sent_ref = [0]` and both workers' closures capture that same
cell, so the claimed per-connection-distinct wiring is false. -/
theorem one_counter_for_all_workers :
    ¬ ((client_wiring 2 true).counters.length = 2 ∧
        (client_wiring 2 true).workerCounter 0 ≠
          (client_wiring 2 true).workerCounter 1) := by
  decide

/-- C7 amended: `client_mode` creates exactly one shared counter,
every one of the parallel send workers writes that same counter (so for
parallelism > 1 it has several writers, not one), and the Reporter,
when an interval is configured, reads that same single counter. -/
theorem client_single_counter_wiring (parallel : Nat) (interval : Bool)
    (i j : Nat) :
    (client_wiring parallel interval).counters.length = 1 ∧
      (client_wiring parallel interval).workerCounter i =
        (client_wiring parallel interval).workerCounter j ∧
      (client_wiring parallel interval).reporterCounter =
        (if interval then
          some ((client_wiring parallel interval).workerCounter 0)
        else none) := by
  refine ⟨rfl, rfl, ?_⟩
  cases interval <;> rfl
